import Mathlib

/-!
Shallow embedding of the evolved `editor.c` (the v0.0.15 snapshot, which all
claim line numbers refer to).  All C `u32` quantities are modelled as `Nat`;
where the source can actually wrap (the repeat-count and pending-count
arithmetic of the motion engine and of `process_normal`), the u32 operations
are made explicit through `add32` / `sub32` / `mul32`, which reduce modulo
`2^32`.  The viewport arithmetic of `scroll` is modelled over plain `Nat`
(its operands stay far below `2^32` for any real terminal).  A row's derived
`render` field, which the source recomputes with `row_update` after every
mutation of `chars`, is modelled as the function `row_render` of the raw
characters.  File contents are `List Char` (one `Char` per byte).
-/

set_option linter.unusedVariables false

namespace Editor

/-- `2^32`, the modulus of the C `u32` type used throughout `editor.c`. -/
def M32 : Nat := 4294967296

/-- u32 addition: `a + b` computed modulo `2^32`. -/
def add32 (a b : Nat) : Nat := (a + b) % M32

/-- u32 subtraction: `a - b` computed modulo `2^32` (for `b < 2^32`). -/
def sub32 (a b : Nat) : Nat := (M32 + a - b) % M32

/-- u32 multiplication: `a * b` computed modulo `2^32`. -/
def mul32 (a b : Nat) : Nat := (a * b) % M32

/-- `TAB_SIZE` from editor.c. -/
def TAB_SIZE : Nat := 8

/-- One step of the render loop of `row_update`: a tab emits one space and
then pads with spaces while `j % TAB_SIZE != 0`, i.e. it appends
`TAB_SIZE - j % TAB_SIZE` spaces in total; any other byte is copied. -/
def row_update_step (acc : List Char) (c : Char) : List Char :=
  if c = '\t' then acc ++ List.replicate (TAB_SIZE - acc.length % TAB_SIZE) ' '
  else acc ++ [c]

/-- The tab-expanded `render` array computed by `row_update` from `chars`. -/
def row_render (chars : List Char) : List Char :=
  chars.foldl row_update_step []

/-- `row_insert_char`: clamps the insertion index to the row length, then
splices the byte in (the `memmove` shifts `chars[at..len]` up by one).
Only the `chars` array is modelled; the source additionally reruns
`row_update` (see `row_render`) and sets the dirty flag. -/
def row_insert_char (chars : List Char) (i : Nat) (c : Char) : List Char :=
  let a := if i > chars.length then chars.length else i
  chars.take a ++ [c] ++ chars.drop a

/-- `row_delete_char`: out-of-range deletes are a no-op; otherwise the
`memmove` drops the byte at index `i`. -/
def row_delete_char (chars : List Char) (i : Nat) : List Char :=
  if i ≥ chars.length then chars
  else chars.take i ++ chars.drop (i + 1)

/-- `rows_to_string`: every row contributes its bytes plus one `'\n'`;
an empty buffer serializes to zero bytes (the C returns `NULL` with
`*buflen = 0`). -/
def rows_to_string (rows : List (List Char)) : List Char :=
  (rows.map (fun r => r ++ ['\n'])).flatten

/-- The `getline` loop of `open_file`: splits the file content into physical
lines, each including its terminating `'\n'`; a final unterminated chunk is
returned without one; at end of input `getline` yields -1 and the loop ends. -/
def getline_split (cs : List Char) (acc : List Char) : List (List Char) :=
  match cs with
  | [] => if acc.isEmpty then [] else [acc.reverse]
  | c :: rest =>
      if c = '\n' then (acc.reverse ++ [c]) :: getline_split rest []
      else getline_split rest (c :: acc)

/-- The per-line trim of `open_file`: drop trailing bytes while the last one
is `'\n'` or `'\r'`. -/
def strip_crlf (l : List Char) : List Char :=
  (l.reverse.dropWhile (fun c => c = '\n' || c = '\r')).reverse

/-- The rows produced by `open_file`'s read loop from raw file content. -/
def load_rows (content : List Char) : List (List Char) :=
  (getline_split content []).map strip_crlf

/-- `pos_t` from editor.c. -/
structure Pos where
  x : Nat
  y : Nat
deriving DecidableEq, Repr

/-- `fix_toofar`: clamp the row into the buffer (last row, or 0 when the
buffer is empty), then clamp the column to that row's length. -/
def fix_toofar (rows : List (List Char)) (p : Pos) : Pos :=
  let y := if p.y ≥ rows.length then (if rows.length ≠ 0 then rows.length - 1 else 0) else p.y
  let len := (rows.getD y []).length
  ⟨if p.x > len then len else p.x, y⟩

/-- `motion_up`: `dy = (count > p.y) ? p.y : count; p.y -= dy`. -/
def motion_up (rows : List (List Char)) (p : Pos) (count : Nat) : Pos :=
  let dy := if count > p.y then p.y else count
  fix_toofar rows ⟨p.x, sub32 p.y dy⟩

/-- `motion_down`: `dy = (p.y + count > row_count) ? row_count - p.y : count;
p.y += dy` in u32 arithmetic, then `fix_toofar`. -/
def motion_down (rows : List (List Char)) (p : Pos) (count : Nat) : Pos :=
  let dy := if add32 p.y count > rows.length then sub32 rows.length p.y else count
  fix_toofar rows ⟨p.x, add32 p.y dy⟩

/-- `motion_left`: `dx = (count > p.x) ? p.x : count; p.x -= dx`. -/
def motion_left (rows : List (List Char)) (p : Pos) (count : Nat) : Pos :=
  let dx := if count > p.x then p.x else count
  ⟨sub32 p.x dx, p.y⟩

/-- `motion_right`: clamp `dx` so that `p.x + dx` does not pass the row
length (0 for an out-of-buffer row). -/
def motion_right (rows : List (List Char)) (p : Pos) (count : Nat) : Pos :=
  let len := if p.y ≥ rows.length then 0 else (rows.getD p.y []).length
  let dx := if add32 p.x count > len then sub32 len p.x else count
  ⟨add32 p.x dx, p.y⟩

/-- `motion_home`: column 0, then `count - 1` (u32) further down-motions. -/
def motion_home (rows : List (List Char)) (p : Pos) (count : Nat) : Pos :=
  motion_down rows ⟨0, p.y⟩ (sub32 count 1)

/-- `motion_end`: column = row length (0 for an out-of-buffer row), then
`count - 1` (u32) further down-motions. -/
def motion_end (rows : List (List Char)) (p : Pos) (count : Nat) : Pos :=
  let len := if p.y ≥ rows.length then 0 else (rows.getD p.y []).length
  motion_down rows ⟨len, p.y⟩ (sub32 count 1)

/-- `motion_fword`: unimplemented stub, returns the start position. -/
def motion_fword (rows : List (List Char)) (p : Pos) (count : Nat) : Pos := p

/-- `motion_bword`: unimplemented stub, returns the start position. -/
def motion_bword (rows : List (List Char)) (p : Pos) (count : Nat) : Pos := p

/-- `motion_fWORD`: unimplemented stub, returns the start position. -/
def motion_fWORD (rows : List (List Char)) (p : Pos) (count : Nat) : Pos := p

/-- `motion_bWORD`: unimplemented stub, returns the start position. -/
def motion_bWORD (rows : List (List Char)) (p : Pos) (count : Nat) : Pos := p

/-- `motion_file_top`: row 0, clamp the column to row 0's length, `fix_toofar`;
the count is ignored. -/
def motion_file_top (rows : List (List Char)) (p : Pos) (count : Nat) : Pos :=
  let len := if 0 ≥ rows.length then 0 else (rows.getD 0 []).length
  fix_toofar rows ⟨if p.x > len then len else p.x, 0⟩

/-- `motion_file_bottom`: last row (0 when empty), clamp the column,
`fix_toofar`; the count is ignored. -/
def motion_file_bottom (rows : List (List Char)) (p : Pos) (count : Nat) : Pos :=
  let y := if rows.length ≠ 0 then rows.length - 1 else 0
  let len := if y ≥ rows.length then 0 else (rows.getD y []).length
  fix_toofar rows ⟨if p.x > len then len else p.x, y⟩

/-- The dispatch table set up by `motions_init`, indexed by the key byte. -/
def motions (key : Nat) : Option (List (List Char) → Pos → Nat → Pos) :=
  if key = 104 then some motion_left          -- h
  else if key = 106 then some motion_down     -- j
  else if key = 107 then some motion_up       -- k
  else if key = 108 then some motion_right    -- l
  else if key = 95 then some motion_home      -- _
  else if key = 36 then some motion_end       -- $
  else if key = 103 then some motion_file_top -- g
  else if key = 71 then some motion_file_bottom -- G
  else if key = 119 then some motion_fword    -- w
  else if key = 98 then some motion_bword     -- b
  else if key = 87 then some motion_fWORD     -- W
  else if key = 66 then some motion_bWORD     -- B
  else none

/-- C `isprint` on the low byte of a key. -/
def isprintB (c : Nat) : Bool := 32 ≤ c % 256 && c % 256 < 127

/-- The transient status messages the modelled code paths can set. -/
inductive StatusMsg
  | notImplementedKey (c : Nat)       -- run_motion: "'%c' is not implemented"
  | notImplementedCmd (cmd : List Char)
  | noWrite                           -- "No write since last change"
  | noFileName                        -- "No file name"
  | newFile                           -- "New file"
  | couldNotOpen                      -- "Could not open %s" (strerror text)
  | written (path : List Char) (lines bytes : Nat)
  | errnoMsg                          -- save failure: "%s" (strerror text)
deriving DecidableEq, Repr

/-- `enum mode` from editor.c. -/
inductive Mode
  | M_NORMAL | M_INSERT | M_COMMAND | M_VISUAL
deriving DecidableEq, Repr

/-- `enum optype` from editor.c. -/
inductive Optype
  | OP_NONE | OP_DELETE | OP_YANK | OP_CHANGE
deriving DecidableEq, Repr

/-- The global `struct editor E`.  `row_count` is `rows.length`; a row's
`render`/`rlen` are the derived `row_render` of its `chars`. -/
structure EState where
  mode : Mode
  pending_op : Optype
  pending_count : Nat
  cx : Nat
  cy : Nat
  rx : Nat
  ry : Nat
  screen_rows : Nat
  screen_cols : Nat
  row_offset : Nat
  col_offset : Nat
  rows : List (List Char)
  dirty : Bool
  filename : Option (List Char)
  statusmsg : Option StatusMsg
deriving DecidableEq, Repr

/-- The `rx` computation of `scroll`: walk the row's bytes up to `cx`; a tab
advances `rx` by `(TAB_SIZE - 1) - rx % TAB_SIZE` and then by one more (so to
the next multiple of `TAB_SIZE`), any other byte by one.  The cursor
invariant keeps `cx` at most the row length; the model walks only the
existing bytes (for larger `cx` the C loop would read past the row). -/
def render_col (row : List Char) (cx : Nat) : Nat :=
  (row.take cx).foldl (fun rx c => if c = '\t' then rx + (TAB_SIZE - rx % TAB_SIZE) else rx + 1) 0

/-- `scroll`: recompute `(rx, ry)` from `(cx, cy)` and pull the scroll
offsets so the render position is on screen.  The four clamps run in source
order, the later ones reading the already-updated offsets. -/
def scroll (s : EState) : EState :=
  let ry := s.cy
  let rx := if s.cy < s.rows.length then render_col (s.rows.getD s.cy []) s.cx else s.cx
  let ro := if ry < s.row_offset then ry else s.row_offset
  let ro := if ry ≥ ro + s.screen_rows then ry - s.screen_rows + 1 else ro
  let co := if rx < s.col_offset then rx else s.col_offset
  let co := if rx ≥ co + s.screen_cols then rx - s.screen_cols + 1 else co
  { s with rx := rx, ry := ry, row_offset := ro, col_offset := co }

/-- `statusmsg_set` stores the message and triggers `refresh_screen`; of that
repaint only `scroll` changes editor state. -/
def statusmsg_set (s : EState) (m : StatusMsg) : EState :=
  scroll { s with statusmsg := some m }

/-- `run_motion`: the source guards the table read with
`key < sizeof(motions)` which is 1024 bytes (128 pointers of 8 bytes), so
keys in `[128, 1024)` read past the table; that out-of-bounds slot is
modelled as an unregistered key.  A registered motion is applied to the
start position; an unregistered key calls `statusmsg_set` with a
not-implemented message (naming the printable key byte, else `'?'` = 63)
and returns the start position.  The returned pair is the mutated editor
state together with the C return value. -/
def run_motion (s : EState) (key : Nat) (start : Pos) (count : Nat) : EState × Pos :=
  match (if key < 1024 then motions key else none) with
  | some m => (s, m s.rows start count)
  | none =>
      (statusmsg_set s (StatusMsg.notImplementedKey (if isprintB key then key % 256 else 63)),
       start)

/-- C `isdigit` applied to the low byte of the key (`isdigit((u8)c)`). -/
def isdigit_u8 (c : Nat) : Bool := 48 ≤ c % 256 && c % 256 ≤ 57

/-- The code from the `handle_as_motion:` label of `process_normal`: take the
count (1 when no pending count), clear the pending count, run the motion from
the current cursor, then either feed the range to the pending operator (the
range appliers `change_range`/`delete_range`/`yank_range` are empty stubs in
the source) and clear it, or move the cursor to the motion's end. -/
def handle_as_motion (s : EState) (c : Nat) : EState :=
  let count := if s.pending_count = 0 then 1 else s.pending_count
  let s1 := { s with pending_count := 0 }
  let rm := run_motion s1 c ⟨s1.cx, s1.cy⟩ count
  let s2 := rm.1
  if s2.pending_op ≠ Optype.OP_NONE then { s2 with pending_op := Optype.OP_NONE }
  else { s2 with cx := rm.2.x, cy := rm.2.y }

/-- `process_normal`: digits accumulate into `pending_count` (u32), except a
`'0'` with no pending count, which is handled as a motion; `c`/`d`/`y` set
the pending operator; everything else is handled as a motion. -/
def process_normal (s : EState) (c : Nat) : EState :=
  if isdigit_u8 c then
    let digit := sub32 c 48
    if s.pending_count = 0 ∧ digit = 0 then handle_as_motion s c
    else { s with pending_count := add32 (mul32 s.pending_count 10) digit }
  else if c = 99 then { s with pending_op := Optype.OP_CHANGE }       -- 'c'
  else if c = 100 then { s with pending_op := Optype.OP_DELETE }      -- 'd'
  else if c = 121 then { s with pending_op := Optype.OP_YANK }        -- 'y'
  else handle_as_motion s c

/-- The outcome of `open`/`fopen` as seen by the editor: the file's bytes,
or a failure which either is `ENOENT` or some other error. -/
inductive OpenResult
  | ok (content : List Char)
  | err (enoent : Bool)
deriving DecidableEq, Repr

/-- `open_file`: with no path and no remembered filename, report and return;
otherwise remember the path, free every existing row, reset the cursor to
(0,0), and only then attempt the open.  Success loads the stripped lines;
`ENOENT` reports "New file"; other errors report the system message.  The
dirty flag is cleared at the end of every path that got past the early
return. -/
def open_file (s : EState) (filepath : Option (List Char)) (res : OpenResult) : EState :=
  if filepath = none ∧ s.filename = none then statusmsg_set s StatusMsg.noFileName
  else
    let sA := match filepath with
      | some fp => { s with filename := some fp }
      | none => s
    let sB := { sA with rows := [], cx := 0, cy := 0 }
    let sC := match res with
      | OpenResult.ok content => { sB with rows := load_rows content }
      | OpenResult.err enoent =>
          if enoent then statusmsg_set sB StatusMsg.newFile
          else statusmsg_set sB StatusMsg.couldNotOpen
    { sC with dirty := false }

/-- `save_file`: with no path and no remembered filename, report and return;
otherwise remember a first filename, serialize with `rows_to_string`, and
write.  `ok` abstracts the open/ftruncate/write/fsync conjunction: on success
report the line/byte counts and clear the dirty flag, else report the system
error string. -/
def save_file (s : EState) (filepath : Option (List Char)) (ok : Bool) : EState :=
  if s.filename = none ∧ filepath = none then statusmsg_set s StatusMsg.noFileName
  else
    let sA := if s.filename = none then { s with filename := filepath } else s
    let path := match filepath with
      | some fp => fp
      | none => sA.filename.getD []
    let buf := rows_to_string sA.rows
    if ok then statusmsg_set { sA with dirty := false } (StatusMsg.written path sA.rows.length buf.length)
    else statusmsg_set sA StatusMsg.errnoMsg

/-- C `isspace`. -/
def isspaceB (c : Char) : Bool :=
  c = ' ' || c = '\t' || c = '\n' || c = '\x0b' || c = '\x0c' || c = '\r'

/-- The leading/trailing whitespace trim at the top of `eval_command`. -/
def trim_ws (l : List Char) : List Char :=
  ((l.dropWhile isspaceB).reverse.dropWhile isspaceB).reverse

/-- Evaluating an ex-command either keeps editing with a new state or exits
the process with a code. -/
inductive CmdOutcome
  | cont (s : EState)
  | exited (code : Nat)
deriving DecidableEq, Repr

/-- `eval_command`: a NULL command is ignored; the trimmed text is split at
the first `' '` into a token and an optional argument (itself stripped of
leading whitespace, empty → NULL); the token is dispatched.  `exit(0)` is
modelled as `CmdOutcome.exited 0` (for `wq` the saved state is discarded by
the exit).  `res`/`saveOk` abstract the file-system outcomes handed to
`open_file`/`save_file`. -/
def eval_command (s : EState) (cmd : Option (List Char)) (res : OpenResult) (saveOk : Bool) :
    CmdOutcome :=
  match cmd with
  | none => CmdOutcome.cont s
  | some raw =>
    let t := trim_ws raw
    if t = [] then CmdOutcome.cont s
    else
      let tok := t.takeWhile (fun c => c ≠ ' ')
      let rest := t.dropWhile (fun c => c ≠ ' ')
      let arg : Option (List Char) :=
        match rest with
        | [] => none
        | _ :: r =>
            let r2 := r.dropWhile isspaceB
            if r2 = [] then none else some r2
      if tok = ['q'] then
        if s.dirty then CmdOutcome.cont (statusmsg_set s StatusMsg.noWrite)
        else CmdOutcome.exited 0
      else if tok = ['q', '!'] then CmdOutcome.exited 0
      else if tok = ['w'] then CmdOutcome.cont (save_file s arg saveOk)
      else if tok = ['w', 'q'] then CmdOutcome.exited 0
      else if tok = ['e'] then
        if s.dirty then CmdOutcome.cont (statusmsg_set s StatusMsg.noWrite)
        else CmdOutcome.cont (open_file s arg res)
      else if tok = ['e', '!'] then CmdOutcome.cont (open_file s arg res)
      else CmdOutcome.cont (statusmsg_set s (StatusMsg.notImplementedCmd tok))

/-! ## Helper lemmas -/

theorem add32_eq_of_lt {a b : Nat} (h : a + b < M32) : add32 a b = a + b := by
  simp only [add32, M32] at *
  omega

theorem sub32_eq_of_le {a b : Nat} (hb : b ≤ a) (ha : a < M32) : sub32 a b = a - b := by
  simp only [sub32, M32] at *
  omega

/-- `scroll` only rewrites the render position and the scroll offsets;
every other field of the editor state passes through. -/
theorem scroll_preserves (s : EState) :
    (scroll s).mode = s.mode ∧ (scroll s).pending_op = s.pending_op ∧
    (scroll s).pending_count = s.pending_count ∧ (scroll s).cx = s.cx ∧
    (scroll s).cy = s.cy ∧ (scroll s).screen_rows = s.screen_rows ∧
    (scroll s).screen_cols = s.screen_cols ∧ (scroll s).rows = s.rows ∧
    (scroll s).dirty = s.dirty ∧ (scroll s).filename = s.filename ∧
    (scroll s).statusmsg = s.statusmsg :=
  ⟨rfl, rfl, rfl, rfl, rfl, rfl, rfl, rfl, rfl, rfl, rfl⟩

/-- A state used to instantiate the claims on concrete inputs: the zeroed
`E` of `init_editor` on a 24×80 terminal (two rows reserved). -/
def sampleState : EState :=
  { mode := Mode.M_NORMAL, pending_op := Optype.OP_NONE, pending_count := 0,
    cx := 0, cy := 0, rx := 0, ry := 0,
    screen_rows := 22, screen_cols := 80, row_offset := 0, col_offset := 0,
    rows := [], dirty := false, filename := none, statusmsg := none }

/-! ## C2: the scroll invariant -/

/-- C2: after every scroll recomputation (run at the start of each screen
refresh, hence after any cursor move), the cursor's render position
`(ry, rx)` lies inside the viewport:
`row_offset ≤ ry < row_offset + screen_rows` and
`col_offset ≤ rx < col_offset + screen_cols` (for a terminal with at least
one usable row and column). -/
theorem scroll_keeps_cursor_in_viewport (s : EState)
    (hr : 1 ≤ s.screen_rows) (hc : 1 ≤ s.screen_cols) :
    (scroll s).row_offset ≤ (scroll s).ry ∧
    (scroll s).ry < (scroll s).row_offset + (scroll s).screen_rows ∧
    (scroll s).col_offset ≤ (scroll s).rx ∧
    (scroll s).rx < (scroll s).col_offset + (scroll s).screen_cols := by
  simp only [scroll]
  split_ifs <;> simp_all <;> omega

/-- Witness for C2 at a concrete state. -/
theorem scroll_keeps_cursor_in_viewport_witness :
    (scroll sampleState).row_offset ≤ (scroll sampleState).ry ∧
    (scroll sampleState).ry < (scroll sampleState).row_offset + (scroll sampleState).screen_rows ∧
    (scroll sampleState).col_offset ≤ (scroll sampleState).rx ∧
    (scroll sampleState).rx < (scroll sampleState).col_offset + (scroll sampleState).screen_cols :=
  scroll_keeps_cursor_in_viewport sampleState (by decide) (by decide)

/-! ## C7: open_file on a missing or unreadable file -/

/-- C7: loading a path that does not exist is not an error: `open_file`
leaves zero rows, resets the cursor to (0,0), clears the dirty flag and
reports "New file"; and on any open failure the previous buffer contents
are gone, because the rows are freed before the open is attempted. -/
theorem open_file_failure_clears_buffer (s : EState) (path : List Char) (e : Bool) :
    (open_file s (some path) (OpenResult.err e)).rows = [] ∧
    (open_file s (some path) (OpenResult.err e)).cx = 0 ∧
    (open_file s (some path) (OpenResult.err e)).cy = 0 ∧
    (open_file s (some path) (OpenResult.err e)).dirty = false ∧
    (open_file s (some path) (OpenResult.err true)).statusmsg = some StatusMsg.newFile := by
  cases e <;> simp [open_file, statusmsg_set, scroll]

/-! ## C8: insert then delete at the same column -/

/-- C8 counterexample to the claim as stated: in an empty row, inserting at
column 1 (clamped by `row_insert_char` to column 0) and then deleting at
column 1 (a no-op in `row_delete_char`, since 1 is out of range) does not
restore the row. -/
theorem insert_then_delete_cex :
    row_delete_char (row_insert_char [] 1 'a') 1 ≠ [] := by decide

/-- C8 (amended): for every row and every column `c` that is at most the
row's length, inserting a character at `c` and then deleting the character
at `c` restores the original row's bytes (hence its length). -/
theorem insert_then_delete_restores (chars : List Char) (i : Nat) (c : Char)
    (h : i ≤ chars.length) :
    row_delete_char (row_insert_char chars i c) i = chars := by
  have hlen : (chars.take i).length = i := by
    simp [List.length_take, Nat.min_eq_left h]
  have hins : row_insert_char chars i c = chars.take i ++ [c] ++ chars.drop i := by
    unfold row_insert_char
    have hni : ¬ i > chars.length := by omega
    simp [hni]
  have hlen2 : (chars.take i ++ [c] ++ chars.drop i).length = chars.length + 1 := by
    simp
    omega
  rw [hins, row_delete_char]
  have hcond : ¬ i ≥ (chars.take i ++ [c] ++ chars.drop i).length := by
    rw [hlen2]; omega
  rw [if_neg hcond]
  have h1 : (chars.take i ++ [c] ++ chars.drop i).take i = chars.take i := by
    rw [List.append_assoc]
    exact List.take_left' hlen
  have h2 : (chars.take i ++ [c] ++ chars.drop i).drop (i + 1) = chars.drop i := by
    apply List.drop_left'
    simp [hlen]
  rw [h1, h2, List.take_append_drop]

/-- Witness for the amended C8 at a concrete row and column. -/
theorem insert_then_delete_restores_witness :
    row_delete_char (row_insert_char ['a', 'b', 'c'] 1 'x') 1 = ['a', 'b', 'c'] :=
  insert_then_delete_restores ['a', 'b', 'c'] 1 'x' (by decide)

/-! ## C5: tab expansion in row_update -/

/-- Rendering one more raw byte applies one `row_update_step` to the render
of the prefix. -/
theorem row_render_take_succ (chars : List Char) (i : Nat) (c : Char)
    (h : chars[i]? = some c) :
    row_render (chars.take (i + 1)) = row_update_step (row_render (chars.take i)) c := by
  rw [row_render, row_render, List.take_succ, h]
  simp [List.foldl_append]

/-- Every `row_update_step` run only appends to the accumulator. -/
theorem foldl_row_update_step_append (l : List Char) :
    ∀ acc : List Char, ∃ t, l.foldl row_update_step acc = acc ++ t := by
  induction l with
  | nil => intro acc; exact ⟨[], by simp⟩
  | cons c l ih =>
    intro acc
    obtain ⟨t, ht⟩ := ih (row_update_step acc c)
    refine ⟨(if c = '\t' then List.replicate (TAB_SIZE - acc.length % TAB_SIZE) ' ' else [c]) ++ t, ?_⟩
    rw [List.foldl_cons, ht, row_update_step]
    split <;> simp

/-- The render of any prefix of the row is a prefix of the row's render. -/
theorem row_render_prefix (chars : List Char) (n : Nat) :
    ∃ rest, row_render chars = row_render (chars.take n) ++ rest := by
  obtain ⟨t, ht⟩ := foldl_row_update_step_append (chars.drop n) (row_render (chars.take n))
  refine ⟨t, ?_⟩
  calc row_render chars
      = List.foldl row_update_step [] (chars.take n ++ chars.drop n) := by
        rw [List.take_append_drop]; rfl
    _ = List.foldl row_update_step (row_render (chars.take n)) (chars.drop n) := by
        rw [List.foldl_append]; rfl
    _ = row_render (chars.take n) ++ t := ht

/-- C5: for a tab at raw index `i` of a row, whose rendered column is the
length `j` of the render of the raw prefix before it, `row_update` continues
at the smallest multiple of `TAB_SIZE` (8) strictly greater than `j`: the
expanded prefix's length is a multiple of 8, is greater than `j`, and is at
most any multiple of 8 above `j`; the tab contributes exactly that run of
one to eight spaces, and the expanded prefix is a prefix of the full
render. -/
theorem tab_expansion_correct (chars : List Char) (i : Nat)
    (h : chars[i]? = some '\t') :
    (row_render (chars.take (i + 1))).length % TAB_SIZE = 0 ∧
    (row_render (chars.take i)).length < (row_render (chars.take (i + 1))).length ∧
    (∀ m, m % TAB_SIZE = 0 → (row_render (chars.take i)).length < m →
        (row_render (chars.take (i + 1))).length ≤ m) ∧
    row_render (chars.take (i + 1)) =
      row_render (chars.take i) ++
        List.replicate
          ((row_render (chars.take (i + 1))).length - (row_render (chars.take i)).length) ' ' ∧
    1 ≤ (row_render (chars.take (i + 1))).length - (row_render (chars.take i)).length ∧
    (row_render (chars.take (i + 1))).length - (row_render (chars.take i)).length ≤ TAB_SIZE ∧
    ∃ rest, row_render chars = row_render (chars.take (i + 1)) ++ rest := by
  have hstep := row_render_take_succ chars i '\t' h
  rw [hstep, row_update_step, if_pos rfl]
  have hlen : (row_render (chars.take i) ++
      List.replicate (TAB_SIZE - (row_render (chars.take i)).length % TAB_SIZE) ' ').length =
      (row_render (chars.take i)).length +
        (TAB_SIZE - (row_render (chars.take i)).length % TAB_SIZE) := by
    simp
  rw [hlen]
  have hmod : (row_render (chars.take i)).length % TAB_SIZE < TAB_SIZE := by
    apply Nat.mod_lt
    simp [TAB_SIZE]
  have hdvd : ((row_render (chars.take i)).length +
      (TAB_SIZE - (row_render (chars.take i)).length % TAB_SIZE)) % TAB_SIZE = 0 := by
    simp only [TAB_SIZE] at *
    omega
  refine ⟨hdvd, by omega, ?_, ?_, by omega, by omega, ?_⟩
  · intro m hm hlt
    simp only [TAB_SIZE] at *
    omega
  · have hdiff : (row_render (chars.take i)).length +
        (TAB_SIZE - (row_render (chars.take i)).length % TAB_SIZE) -
        (row_render (chars.take i)).length =
        TAB_SIZE - (row_render (chars.take i)).length % TAB_SIZE := by omega
    rw [hdiff]
  · obtain ⟨rest, hrest⟩ := row_render_prefix chars (i + 1)
    refine ⟨rest, ?_⟩
    rw [hrest, hstep, row_update_step, if_pos rfl]

/-- Witness for C5: in the row "a⇥b" the tab sits at raw index 1 and its
expansion ends at rendered column 8. -/
theorem tab_expansion_correct_witness :
    (row_render (['a', '\t', 'b'].take (1 + 1))).length % TAB_SIZE = 0 :=
  (tab_expansion_correct ['a', '\t', 'b'] 1 (by decide)).1

/-! ## C1: save/load round-trip -/

/-- `getline` consumes a `'\n'`-free chunk up to and including the next
newline as one physical line. -/
theorem getline_split_append (r : List Char) (hn : '\n' ∉ r) (rest : List Char) :
    ∀ acc, getline_split (r ++ '\n' :: rest) acc =
      ((acc.reverse ++ r) ++ ['\n']) :: getline_split rest [] := by
  induction r with
  | nil => intro acc; simp [getline_split]
  | cons x r ih =>
    intro acc
    have hx : ¬ x = '\n' := fun hx => hn (hx ▸ List.mem_cons_self x r)
    have hr : '\n' ∉ r := fun hm => hn (List.mem_cons_of_mem x hm)
    simp only [List.cons_append, getline_split, if_neg hx, List.append_eq]
    rw [ih hr (x :: acc)]
    simp

/-- Stripping the trailing `'\n'`/`'\r'` run from `line ++ "\n"` gives back
`line`, provided `line` has no `'\n'` and does not end in `'\r'`. -/
theorem strip_crlf_append_newline (r : List Char) (hn : '\n' ∉ r)
    (hr : r.getLast? ≠ some '\r') :
    strip_crlf (r ++ ['\n']) = r := by
  have hdrop : List.dropWhile (fun c => c = '\n' || c = '\r') r.reverse = r.reverse := by
    cases hrev : r.reverse with
    | nil => rfl
    | cons y t =>
      have hy : r.getLast? = some y := by
        rw [← List.head?_reverse, hrev]
        rfl
      have hyn : ¬ y = '\n' := by
        intro he
        apply hn
        have hmem : y ∈ r := by
          rw [← List.mem_reverse, hrev]
          exact List.mem_cons_self y t
        exact he ▸ hmem
      have hyr : ¬ y = '\r' := by
        intro he
        exact hr (by rw [hy, he])
      rw [List.dropWhile_cons, if_neg (by simp [hyn, hyr])]
  unfold strip_crlf
  rw [List.reverse_append]
  simp only [List.reverse_cons, List.reverse_nil, List.nil_append, List.singleton_append]
  rw [List.dropWhile_cons, if_pos (by simp), hdrop, List.reverse_reverse]

/-- `open_file`'s read loop inverts `rows_to_string` for buffers whose rows
contain no `'\n'` and do not end in `'\r'`. -/
theorem load_rows_rows_to_string (rows : List (List Char))
    (h : ∀ r ∈ rows, '\n' ∉ r ∧ r.getLast? ≠ some '\r') :
    load_rows (rows_to_string rows) = rows := by
  induction rows with
  | nil => rfl
  | cons r rs ih =>
    have hr := h r (List.mem_cons_self r rs)
    have hrest : ∀ x ∈ rs, '\n' ∉ x ∧ x.getLast? ≠ some '\r' :=
      fun x hx => h x (List.mem_cons_of_mem r hx)
    have hform : rows_to_string (r :: rs) = r ++ '\n' :: rows_to_string rs := by
      simp [rows_to_string]
    rw [load_rows, hform, getline_split_append r hr.1 (rows_to_string rs) []]
    simp only [List.reverse_nil, List.nil_append, List.map_cons]
    rw [strip_crlf_append_newline r hr.1 hr.2]
    have : (getline_split (rows_to_string rs) []).map strip_crlf = rs := ih hrest
    rw [show (getline_split (rows_to_string rs) []).map strip_crlf = load_rows (rows_to_string rs) from rfl]
    rw [ih hrest]

/-- C1 counterexample to the claim as stated: the buffer whose single row is
"a\r" contains no newline, yet saving it (serialized as "a\r\n") and loading
the file back yields the row "a" — `open_file` strips the trailing `'\r'`
together with the `'\n'`. -/
theorem save_load_round_trip_cex :
    (open_file sampleState (some ['f'])
        (OpenResult.ok (rows_to_string [['a', '\r']]))).rows ≠ [['a', '\r']] := by
  decide

/-- C1 (amended): for every buffer whose rows contain no `'\n'` and whose
rows do not end in `'\r'`, loading a file holding exactly the bytes
`save_file` writes (`rows_to_string` of the buffer) reproduces the row
contents exactly. -/
theorem save_load_round_trip (s : EState) (path : List Char)
    (h : ∀ r ∈ s.rows, '\n' ∉ r ∧ r.getLast? ≠ some '\r') :
    (open_file s (some path) (OpenResult.ok (rows_to_string s.rows))).rows = s.rows := by
  unfold open_file
  rw [if_neg (by simp)]
  simp only []
  exact load_rows_rows_to_string s.rows h

/-- Witness for the amended C1 on a two-row buffer (includes an empty row
and an interior `'\r'`). -/
theorem save_load_round_trip_witness :
    (open_file { sampleState with rows := [['a', '\r', 'b'], []] } (some ['f'])
        (OpenResult.ok (rows_to_string [['a', '\r', 'b'], []]))).rows =
      [['a', '\r', 'b'], []] :=
  save_load_round_trip { sampleState with rows := [['a', '\r', 'b'], []] } ['f'] (by decide)

/-! ## C3: the j / k motions -/

/-- Closed form of `fix_toofar` on a nonempty buffer: the row is clamped to
the last row and the column to the clamped row's length. -/
theorem fix_toofar_eq (rows : List (List Char)) (x y : Nat) (h : 1 ≤ rows.length) :
    fix_toofar rows ⟨x, y⟩ =
      ⟨min x ((rows.getD (min y (rows.length - 1)) []).length), min y (rows.length - 1)⟩ := by
  unfold fix_toofar
  have hy : (if y ≥ rows.length then (if rows.length ≠ 0 then rows.length - 1 else 0) else y) =
      min y (rows.length - 1) := by
    split_ifs <;> omega
  rw [hy]
  simp only [Pos.mk.injEq]
  constructor
  · split_ifs <;> omega
  · trivial

/-- C3 counterexample to the claim as stated: on the two-row buffer
["a", "b"], the `j` motion with the (reachable) repeat count 4294967295
from the valid start (0, 1) lands on row 0 — the u32 addition
`p.y + count` wraps — whereas "move down by min(count, distance to the
buffer boundary)" would leave the cursor on row 1. -/
theorem motion_down_wrap_cex :
    (motion_down [['a'], ['b']] ⟨0, 1⟩ 4294967295).y ≠
      1 + min 4294967295 ([['a'], ['b']].length - 1 - 1) := by
  decide

/-- C3 (amended): on a nonempty buffer, from a valid start row, `j` moves
down by exactly `min(count, distance to the last row)` provided
`row + count` does not overflow u32, and `k` moves up by exactly
`min(count, distance to row 0)` for every count; both then clamp the
column to the destination row's length (recomputed from the current
column). -/
theorem motion_down_up_clamp (rows : List (List Char)) (p : Pos) (n : Nat)
    (hrows : 1 ≤ rows.length) (hy : p.y < rows.length)
    (hrc : rows.length < M32) :
    (p.y + n < M32 →
      motion_down rows p n =
        ⟨min p.x ((rows.getD (p.y + min n (rows.length - 1 - p.y)) []).length),
          p.y + min n (rows.length - 1 - p.y)⟩) ∧
    motion_up rows p n =
      ⟨min p.x ((rows.getD (p.y - min n p.y) []).length), p.y - min n p.y⟩ := by
  constructor
  · intro hn
    unfold motion_down
    dsimp only
    rw [add32_eq_of_lt hn, sub32_eq_of_le (by omega) hrc]
    by_cases hbig : p.y + n > rows.length
    · rw [if_pos hbig]
      rw [add32_eq_of_lt (by omega)]
      rw [fix_toofar_eq rows p.x (p.y + (rows.length - p.y)) hrows]
      have hidx : min (p.y + (rows.length - p.y)) (rows.length - 1) =
          p.y + min n (rows.length - 1 - p.y) := by omega
      rw [hidx]
    · rw [if_neg hbig]
      rw [add32_eq_of_lt hn]
      rw [fix_toofar_eq rows p.x (p.y + n) hrows]
      have hidx : min (p.y + n) (rows.length - 1) =
          p.y + min n (rows.length - 1 - p.y) := by omega
      rw [hidx]
  · unfold motion_up
    dsimp only
    have hdy : (if n > p.y then p.y else n) = min n p.y := by
      split_ifs <;> omega
    rw [hdy, sub32_eq_of_le (by omega) (by omega)]
    rw [fix_toofar_eq rows p.x (p.y - min n p.y) hrows]
    have hidx : min (p.y - min n p.y) (rows.length - 1) = p.y - min n p.y := by omega
    rw [hidx]

/-- Witness for the amended C3: `3j` from row 0 of a two-row buffer lands
on row 1 (the spec's own concrete scenario). -/
theorem motion_down_up_clamp_witness :
    (motion_down [['a', 'b', 'c'], ['x']] ⟨0, 0⟩ 3).y = 1 := by
  have h := motion_down_up_clamp [['a', 'b', 'c'], ['x']] ⟨0, 0⟩ 3
    (by decide) (by decide) (by decide)
  rw [h.1 (by decide)]
  decide

/-! ## C9: every registered motion preserves cursor validity -/

/-- `getD` with a default picks an element of the list when in range. -/
theorem getD_mem (l : List (List Char)) (i : Nat) (h : i < l.length) :
    l.getD i [] ∈ l := by
  rw [List.getD_eq_getElem?_getD, List.getElem?_eq_getElem h]
  simp [List.getElem_mem h]

/-- On a nonempty buffer `fix_toofar` always returns a valid position. -/
theorem fix_toofar_valid (rows : List (List Char)) (p : Pos) (h : 1 ≤ rows.length) :
    (fix_toofar rows p).y < rows.length ∧
    (fix_toofar rows p).x ≤ (rows.getD (fix_toofar rows p).y []).length := by
  have he : fix_toofar rows p = fix_toofar rows ⟨p.x, p.y⟩ := rfl
  rw [he, fix_toofar_eq rows p.x p.y h]
  refine ⟨?_, ?_⟩
  · dsimp only
    omega
  · dsimp only
    exact min_le_right _ _

theorem motion_down_valid (rows : List (List Char)) (p : Pos) (n : Nat)
    (h : 1 ≤ rows.length) :
    (motion_down rows p n).y < rows.length ∧
    (motion_down rows p n).x ≤ (rows.getD (motion_down rows p n).y []).length := by
  unfold motion_down
  dsimp only
  exact fix_toofar_valid rows _ h

theorem motion_up_valid (rows : List (List Char)) (p : Pos) (n : Nat)
    (h : 1 ≤ rows.length) :
    (motion_up rows p n).y < rows.length ∧
    (motion_up rows p n).x ≤ (rows.getD (motion_up rows p n).y []).length := by
  unfold motion_up
  dsimp only
  exact fix_toofar_valid rows _ h

theorem motion_home_valid (rows : List (List Char)) (p : Pos) (n : Nat)
    (h : 1 ≤ rows.length) :
    (motion_home rows p n).y < rows.length ∧
    (motion_home rows p n).x ≤ (rows.getD (motion_home rows p n).y []).length := by
  unfold motion_home
  exact motion_down_valid rows _ _ h

theorem motion_end_valid (rows : List (List Char)) (p : Pos) (n : Nat)
    (h : 1 ≤ rows.length) :
    (motion_end rows p n).y < rows.length ∧
    (motion_end rows p n).x ≤ (rows.getD (motion_end rows p n).y []).length := by
  unfold motion_end
  dsimp only
  exact motion_down_valid rows _ _ h

theorem motion_file_top_valid (rows : List (List Char)) (p : Pos) (n : Nat)
    (h : 1 ≤ rows.length) :
    (motion_file_top rows p n).y < rows.length ∧
    (motion_file_top rows p n).x ≤ (rows.getD (motion_file_top rows p n).y []).length := by
  unfold motion_file_top
  dsimp only
  exact fix_toofar_valid rows _ h

theorem motion_file_bottom_valid (rows : List (List Char)) (p : Pos) (n : Nat)
    (h : 1 ≤ rows.length) :
    (motion_file_bottom rows p n).y < rows.length ∧
    (motion_file_bottom rows p n).x ≤ (rows.getD (motion_file_bottom rows p n).y []).length := by
  unfold motion_file_bottom
  dsimp only
  exact fix_toofar_valid rows _ h

theorem motion_left_valid (rows : List (List Char)) (p : Pos) (n : Nat)
    (hy : p.y < rows.length) (hx : p.x ≤ (rows.getD p.y []).length)
    (hM : (rows.getD p.y []).length < M32) :
    (motion_left rows p n).y < rows.length ∧
    (motion_left rows p n).x ≤ (rows.getD (motion_left rows p n).y []).length := by
  unfold motion_left
  dsimp only
  refine ⟨hy, ?_⟩
  have hdx : (if n > p.x then p.x else n) ≤ p.x := by split_ifs <;> omega
  rw [sub32_eq_of_le hdx (by omega)]
  omega

theorem motion_right_valid (rows : List (List Char)) (p : Pos) (n : Nat)
    (hy : p.y < rows.length) (hx : p.x ≤ (rows.getD p.y []).length)
    (hM : (rows.getD p.y []).length < M32) :
    (motion_right rows p n).y < rows.length ∧
    (motion_right rows p n).x ≤ (rows.getD (motion_right rows p n).y []).length := by
  unfold motion_right
  dsimp only
  rw [if_neg (by omega : ¬ p.y ≥ rows.length)]
  refine ⟨hy, ?_⟩
  by_cases hbig : add32 p.x n > (rows.getD p.y []).length
  · rw [if_pos hbig, sub32_eq_of_le hx hM, add32_eq_of_lt (by omega)]
    omega
  · rw [if_neg hbig]
    omega

/-- C9: from any valid cursor position of a nonempty buffer (row within the
buffer, column at most the row's length), each of the twelve registered
motion keys h, j, k, l, `_`, `$`, g, G, w, b, W, B, with any repeat count,
returns a position whose row is within the buffer and whose column is at
most the destination row's length. -/
theorem registered_motions_preserve_validity (s : EState) (key n : Nat) (p : Pos)
    (hk : key ∈ [104, 106, 107, 108, 95, 36, 103, 71, 119, 98, 87, 66])
    (h1 : 1 ≤ s.rows.length) (hM : ∀ r ∈ s.rows, r.length < M32)
    (hy : p.y < s.rows.length) (hx : p.x ≤ (s.rows.getD p.y []).length) :
    ((run_motion s key p n).2).y < s.rows.length ∧
    ((run_motion s key p n).2).x ≤
      (s.rows.getD ((run_motion s key p n).2).y []).length := by
  have hMrow : (s.rows.getD p.y []).length < M32 := hM _ (getD_mem s.rows p.y hy)
  simp only [List.mem_cons, List.not_mem_nil, or_false] at hk
  rcases hk with rfl | rfl | rfl | rfl | rfl | rfl | rfl | rfl | rfl | rfl | rfl | rfl
  · exact motion_left_valid s.rows p n hy hx hMrow
  · exact motion_down_valid s.rows p n h1
  · exact motion_up_valid s.rows p n h1
  · exact motion_right_valid s.rows p n hy hx hMrow
  · exact motion_home_valid s.rows p n h1
  · exact motion_end_valid s.rows p n h1
  · exact motion_file_top_valid s.rows p n h1
  · exact motion_file_bottom_valid s.rows p n h1
  · exact ⟨hy, hx⟩
  · exact ⟨hy, hx⟩
  · exact ⟨hy, hx⟩
  · exact ⟨hy, hx⟩

/-- Witness for C9 at a concrete buffer, start position, and key (h). -/
theorem registered_motions_preserve_validity_witness :
    ((run_motion { sampleState with rows := [['a', 'b']] } 104 ⟨1, 0⟩ 1).2).y <
      ({ sampleState with rows := [['a', 'b']] } : EState).rows.length ∧
    ((run_motion { sampleState with rows := [['a', 'b']] } 104 ⟨1, 0⟩ 1).2).x ≤
      (({ sampleState with rows := [['a', 'b']] } : EState).rows.getD
        ((run_motion { sampleState with rows := [['a', 'b']] } 104 ⟨1, 0⟩ 1).2).y []).length :=
  registered_motions_preserve_validity { sampleState with rows := [['a', 'b']] } 104 1 ⟨1, 0⟩
    (by decide) (by decide) (by decide) (by decide) (by decide)

/-! ## C4: motion resolution clears the pending state -/

/-- `run_motion` never touches the pending count or the pending operator
(its only state effect is a possible status message). -/
theorem run_motion_state_preserves (s : EState) (key : Nat) (start : Pos) (count : Nat) :
    ((run_motion s key start count).1).pending_count = s.pending_count ∧
    ((run_motion s key start count).1).pending_op = s.pending_op := by
  unfold run_motion
  cases hm : (if key < 1024 then motions key else none) <;>
    simp [statusmsg_set, scroll]

/-- Reaching the `handle_as_motion:` label always ends with both
`pending_count = 0` and `pending_op = OP_NONE`, in both the operator branch
and the plain cursor-move branch. -/
theorem handle_as_motion_clears (s : EState) (c : Nat) :
    (handle_as_motion s c).pending_count = 0 ∧
    (handle_as_motion s c).pending_op = Optype.OP_NONE := by
  unfold handle_as_motion
  dsimp only
  generalize (if s.pending_count = 0 then 1 else s.pending_count) = count
  obtain ⟨hpc, hop⟩ := run_motion_state_preserves { s with pending_count := 0 } c
    ⟨s.cx, s.cy⟩ count
  split_ifs with h
  · constructor
    · simpa using hpc
    · simp
  · constructor
    · simpa using hpc
    · simpa using not_not.mp h

/-- C4: in Normal mode, once a key is handled as a motion — either applied
as a cursor move or used to define an operator range (the range appliers
being stubs either way) — both `pending_count` and `pending_op` are cleared.
The hypothesis states exactly the source's conditions for reaching the
`handle_as_motion:` label: a `'0'` digit with no pending count, or any
non-digit key other than the operator prefixes c, d, y. -/
theorem motion_resolution_clears_pending (s : EState) (c : Nat)
    (h : (isdigit_u8 c = true ∧ s.pending_count = 0 ∧ sub32 c 48 = 0) ∨
         (isdigit_u8 c = false ∧ c ≠ 99 ∧ c ≠ 100 ∧ c ≠ 121)) :
    (process_normal s c).pending_count = 0 ∧
    (process_normal s c).pending_op = Optype.OP_NONE := by
  rcases h with ⟨h1, h2, h3⟩ | ⟨h1, h2, h3, h4⟩
  · unfold process_normal
    rw [if_pos h1]
    dsimp only
    rw [if_pos ⟨h2, h3⟩]
    exact handle_as_motion_clears s c
  · unfold process_normal
    rw [if_neg (by simp [h1]), if_neg h2, if_neg h3, if_neg h4]
    exact handle_as_motion_clears s c

/-- Witness for C4: `j` with a pending count of 5 and a pending delete
operator leaves both cleared. -/
theorem motion_resolution_clears_pending_witness :
    (process_normal { sampleState with pending_count := 5, pending_op := Optype.OP_DELETE }
        106).pending_count = 0 ∧
    (process_normal { sampleState with pending_count := 5, pending_op := Optype.OP_DELETE }
        106).pending_op = Optype.OP_NONE :=
  motion_resolution_clears_pending
    { sampleState with pending_count := 5, pending_op := Optype.OP_DELETE } 106
    (Or.inr ⟨by decide, by decide, by decide, by decide⟩)

/-! ## C10: digit handling in Normal mode -/

/-- C10 counterexample to the claim as stated: with the reachable pending
count 429496730 (typed as nine digits), pressing `'0'` does not set
`pending_count` to `10 * 429496730 + 0 = 4294967300`; the u32
multiply-accumulate wraps to 4. -/
theorem pending_count_wrap_cex :
    (process_normal { sampleState with pending_count := 429496730 } 48).pending_count ≠
      10 * 429496730 + 0 := by
  decide

/-- C10 (amended): in Normal mode with no pending operator, pressing digit
`d` while `pending_count = p` sets `pending_count` to `(10*p + d) mod 2^32`
and changes nothing else; exception: `'0'` with `p = 0` is dispatched as a
motion key, and as no motion is registered for `'0'` it reports the
not-implemented message and leaves the cursor unchanged (clearing the
pending state). -/
theorem process_normal_digit (s : EState) (d : Nat) (hd : d ≤ 9)
    (hop : s.pending_op = Optype.OP_NONE) :
    (¬ (s.pending_count = 0 ∧ d = 0) →
      process_normal s (48 + d) =
        { s with pending_count := (10 * s.pending_count + d) % M32 }) ∧
    (s.pending_count = 0 →
      (process_normal s 48).cx = s.cx ∧
      (process_normal s 48).cy = s.cy ∧
      (process_normal s 48).pending_count = 0 ∧
      (process_normal s 48).pending_op = Optype.OP_NONE ∧
      (process_normal s 48).statusmsg = some (StatusMsg.notImplementedKey 48)) := by
  constructor
  · intro hne
    have hdig : isdigit_u8 (48 + d) = true := by
      unfold isdigit_u8
      rw [Nat.mod_eq_of_lt (by omega)]
      simp
      omega
    have hsub : sub32 (48 + d) 48 = d := by
      rw [sub32_eq_of_le (by omega) (by simp [M32]; omega)]
      omega
    unfold process_normal
    rw [if_pos hdig]
    dsimp only
    rw [hsub, if_neg hne]
    congr 1
    unfold add32 mul32
    rw [Nat.mod_add_mod, Nat.mul_comm]
  · intro hpc
    have hd0 : isdigit_u8 48 = true := by decide
    unfold process_normal
    rw [if_pos hd0]
    dsimp only
    rw [if_pos ⟨hpc, by decide⟩]
    unfold handle_as_motion run_motion
    have hm : (if (48 : Nat) < 1024 then motions 48 else none) =
        (none : Option (List (List Char) → Pos → Nat → Pos)) := rfl
    rw [hm]
    dsimp only
    have hpr : (if isprintB 48 then 48 % 256 else 63) = 48 := by decide
    rw [hpr]
    rw [if_neg (by simp [statusmsg_set, scroll, hop])]
    refine ⟨?_, ?_, ?_, ?_, ?_⟩ <;> simp [statusmsg_set, scroll, hop]

/-- Witness for the amended C10: pressing `'2'` with pending count 4 yields
pending count 42. -/
theorem process_normal_digit_witness :
    process_normal { sampleState with pending_count := 4 } (48 + 2) =
      { { sampleState with pending_count := 4 } with
        pending_count := (10 * ({ sampleState with pending_count := 4 } : EState).pending_count + 2) % M32 } :=
  (process_normal_digit { sampleState with pending_count := 4 } 2 (by decide) (by decide)).1
    (by decide)

/-! ## C6: the ex-command q -/

/-- C6: evaluating the ex-command `q` exits the process with code 0 when
the buffer is not dirty; when it is dirty it does not exit, reports the
"No write since last change" message, and leaves the buffer rows, the
cursor, and the dirty flag unchanged. -/
theorem eval_q_command (s : EState) (res : OpenResult) (ok : Bool) :
    (s.dirty = false → eval_command s (some ['q']) res ok = CmdOutcome.exited 0) ∧
    (s.dirty = true →
      eval_command s (some ['q']) res ok =
        CmdOutcome.cont (statusmsg_set s StatusMsg.noWrite) ∧
      (statusmsg_set s StatusMsg.noWrite).rows = s.rows ∧
      (statusmsg_set s StatusMsg.noWrite).cx = s.cx ∧
      (statusmsg_set s StatusMsg.noWrite).cy = s.cy ∧
      (statusmsg_set s StatusMsg.noWrite).dirty = true ∧
      (statusmsg_set s StatusMsg.noWrite).statusmsg = some StatusMsg.noWrite) := by
  have hq : eval_command s (some ['q']) res ok =
      if s.dirty then CmdOutcome.cont (statusmsg_set s StatusMsg.noWrite)
      else CmdOutcome.exited 0 := rfl
  constructor
  · intro hd
    rw [hq, hd]
    simp
  · intro hd
    rw [hq, hd]
    refine ⟨by simp, rfl, rfl, rfl, hd, rfl⟩

/-- A dirty one-row buffer, used to instantiate C6. -/
def dirtyState : EState := { sampleState with dirty := true, rows := [['a']] }

/-- Witness for C6 at concrete clean and dirty states. -/
theorem eval_q_command_witness :
    eval_command sampleState (some ['q']) (OpenResult.err true) true = CmdOutcome.exited 0 ∧
    eval_command dirtyState (some ['q']) (OpenResult.err true) true =
      CmdOutcome.cont (statusmsg_set dirtyState StatusMsg.noWrite) :=
  ⟨(eval_q_command sampleState (OpenResult.err true) true).1 rfl,
   ((eval_q_command dirtyState (OpenResult.err true) true).2 rfl).1⟩

end Editor
